import Mathlib

/-!
Verification of the Windows service lifecycle controller in
`service/service_windows.go` of the `elastic-agent-libs` repository.

The concurrent protagonists of `beatService.Execute` — the main goroutine
running the event loop, the multiplexer goroutine spawned at line 52, and
the environment actions (closing the `done` channel, scheduling) — are
embedded as a small-step interleaving semantics over an explicit state
record `St` with an executable successor function `nexts`.  The simpler
functions `ProcessWindowsControlEvents` and `WaitExecutionDone` are
embedded directly as total Lean functions over an environment record.
-/

namespace ServiceWindows

/-! ## svc package constants (golang.org/x/sys/windows/svc) -/

/-- `svc.AcceptStop` (SERVICE_ACCEPT_STOP). -/
def acceptStop : Nat := 1

/-- `svc.AcceptShutdown` (SERVICE_ACCEPT_SHUTDOWN). -/
def acceptShutdown : Nat := 4

/-- `const cmdsAccepted = svc.AcceptStop | svc.AcceptShutdown` (line 46). -/
def cmdsAccepted : Nat := acceptStop ||| acceptShutdown

/-- The `svc.State` values that `Execute` ever puts into a `svc.Status`. -/
inductive SvcState
  | startPending
  | running
  | stopPending
  | stopped
deriving DecidableEq, Repr

/-- `svc.Status`: the state together with the accepted-commands bitmask. -/
structure SvcStatus where
  state : SvcState
  accepts : Nat
deriving DecidableEq, Repr

/-- `svc.ChangeRequest`: the command, with `CurrentStatus` carried by
`Interrogate` (the only command whose handler reads it). -/
inductive Cmd
  | interrogate (cur : SvcStatus)
  | stop
  | shutdown
  | other (code : Nat)
deriving DecidableEq, Repr

/-- Observable events of one run of `Execute`, in program order:
successful sends on `changes`, abandoned `trySendState` attempts
(500 ms timeout), the two Interrogate echoes of `c.CurrentStatus` with
the 100 ms sleep between them, and the ignored-unknown-command log. -/
inductive Ev
  | reported (st : SvcStatus)
  | dropped (s : SvcState)
  | echoed (st : SvcStatus)
  | paused
  | ignored (code : Nat)
deriving DecidableEq, Repr

/-- Program counter of the goroutine running `beatService.Execute`.
`sendStart`/`sendRun` are the two blocking sends at lines 47–48;
`loop` is the `for c := range combinedChan` receive point; the three
`echo*` counters are the Interrogate handler (send, sleep, send);
`trySP` is `trySendState(svc.StopPending)`, `cb` the `stopCallback()`
call, `waitDone` the `<-m.done` at line 95, `tryStopped` the deferred
`trySendState(svc.Stopped)`, and `returned` the function exit. -/
inductive ExecPC
  | sendStart
  | sendRun
  | loop
  | echoFirst (cur : SvcStatus)
  | echoPause (cur : SvcStatus)
  | echoSecond (cur : SvcStatus)
  | trySP
  | cb
  | waitDone
  | tryStopped
  | returned
deriving DecidableEq, Repr

/-- Program counter of the multiplexer goroutine of lines 52–61.
It is spawned after the two startup sends, performs one `select` over
`r` and `m.done`, forwards at most one value into `combinedChan`
(`fwd c` / `sendShutdown` are the blocking-send points), and exits:
the `select` is not inside a loop in this code. -/
inductive MuxPC
  | notSpawned
  | selecting
  | fwd (c : Cmd)
  | sendShutdown
  | exited
deriving DecidableEq, Repr

/-- Global state of one run: the two goroutine counters, whether the
`done` channel is closed, whether the environment still intends to close
it (`donePending`), the requests the service manager will deliver on `r`
(in order), the event trace, the number of `close(m.done)` calls, the
number of completed `stopCallback()` invocations, and the `(ssec, errno)`
pair once `Execute` has returned. -/
structure St where
  epc : ExecPC
  mpc : MuxPC
  done : Bool
  donePending : Bool
  inbound : List Cmd
  trace : List Ev
  closes : Nat
  cbRuns : Nat
  res : Option (Bool × Nat)
deriving DecidableEq, Repr

/-- Environment action: `notifyWindowsServiceStopped` / the internal stop
request — `close(m.done)` (lines 107–113).  Enabled while the channel is
open and the environment still plans to call it. -/
def envSteps (s : St) : List St :=
  if !s.done && s.donePending then
    [{ s with done := true, donePending := false, closes := s.closes + 1 }]
  else []

/-- Effect of the event loop (lines 63–84) receiving `c` from
`combinedChan`: `Interrogate` enters the echo handler, `Stop`/`Shutdown`
break the loop towards `trySendState(svc.StopPending)`, anything else is
logged and the loop continues.  The multiplexer goroutine has completed
its single send and returns (`exited`). -/
def deliverTo (s : St) (c : Cmd) : St :=
  match c with
  | .interrogate cur => { s with epc := .echoFirst cur, mpc := .exited }
  | .stop => { s with epc := .trySP, mpc := .exited }
  | .shutdown => { s with epc := .trySP, mpc := .exited }
  | .other n => { s with epc := .loop, mpc := .exited, trace := s.trace ++ [.ignored n] }

/-- Steps of the multiplexer goroutine (lines 52–61).  In `selecting` it
may take the next inbound request or, if `done` is closed, take the done
branch.  A pending send into the unbuffered `combinedChan` rendezvouses
only when the event loop is at its receive point. -/
def muxSteps (s : St) : List St :=
  match s.mpc with
  | .notSpawned => []
  | .selecting =>
      (match s.inbound with
       | [] => []
       | c :: rest => [{ s with mpc := .fwd c, inbound := rest }]) ++
      (if s.done then [{ s with mpc := .sendShutdown }] else [])
  | .fwd c => if s.epc = .loop then [deliverTo s c] else []
  | .sendShutdown =>
      if s.epc = .loop then [{ s with epc := .trySP, mpc := .exited }] else []
  | .exited => []

/-- Steps of the goroutine running `Execute`.  `ready` says whether the
service manager is ready to receive on `changes`: the plain sends
(startup reports and the Interrogate echoes) can fire only then, while
`trySendState` (lines 100–105) may always abandon the attempt after its
500 ms timeout.  Spawning the multiplexer (line 52) is folded into the
completion of the `Running` report, the last action before it. -/
def execSteps (ready : Bool) (s : St) : List St :=
  match s.epc with
  | .sendStart =>
      if ready then
        [{ s with epc := .sendRun,
                  trace := s.trace ++ [.reported ⟨.startPending, 0⟩] }]
      else []
  | .sendRun =>
      if ready then
        [{ s with epc := .loop, mpc := .selecting,
                  trace := s.trace ++ [.reported ⟨.running, cmdsAccepted⟩] }]
      else []
  | .loop => []
  | .echoFirst cur =>
      if ready then
        [{ s with epc := .echoPause cur, trace := s.trace ++ [.echoed cur] }]
      else []
  | .echoPause cur =>
      [{ s with epc := .echoSecond cur, trace := s.trace ++ [.paused] }]
  | .echoSecond cur =>
      if ready then
        [{ s with epc := .loop, trace := s.trace ++ [.echoed cur] }]
      else []
  | .trySP =>
      (if ready then
        [{ s with epc := .cb, trace := s.trace ++ [.reported ⟨.stopPending, 0⟩] }]
       else []) ++
      [{ s with epc := .cb, trace := s.trace ++ [.dropped .stopPending] }]
  | .cb => [{ s with epc := .waitDone, cbRuns := s.cbRuns + 1 }]
  | .waitDone => if s.done then [{ s with epc := .tryStopped }] else []
  | .tryStopped =>
      (if ready then
        [{ s with epc := .returned,
                  trace := s.trace ++ [.reported ⟨.stopped, 0⟩],
                  res := some (false, 0) }]
       else []) ++
      [{ s with epc := .returned, trace := s.trace ++ [.dropped .stopped],
                res := some (false, 0) }]
  | .returned => []

/-- All enabled transitions from `s` under a sink that is (`ready`) or is
not ready to accept status reports. -/
def nexts (ready : Bool) (s : St) : List St :=
  envSteps s ++ muxSteps s ++ execSteps ready s

/-- Initial state of one run of `Execute`: `inbound` is the sequence of
control requests the service manager will deliver, `wrs` whether the
environment will at some point call `notifyWindowsServiceStopped`
(close `done`). -/
def init (inbound : List Cmd) (wrs : Bool) : St :=
  { epc := .sendStart, mpc := .notSpawned, done := false, donePending := wrs,
    inbound := inbound, trace := [], closes := 0, cbRuns := 0, res := none }

/-- Reachability under arbitrary interleaving of the goroutines and the
environment. -/
inductive Reach (ready : Bool) (i : St) : St → Prop
  | refl : Reach ready i i
  | step {s t : St} : Reach ready i s → t ∈ nexts ready s → Reach ready i t

/-- A predicate preserved by every transition. -/
def Preserved (ready : Bool) (P : St → Prop) : Prop :=
  ∀ s t, P s → t ∈ nexts ready s → P t

theorem reach_pres {ready : Bool} {i s : St} (P : St → Prop)
    (hP : Preserved ready P) (hi : P i) (h : Reach ready i s) : P s := by
  induction h with
  | refl => exact hi
  | step hr hm ih => exact hP _ _ ih hm

theorem reach_of_no_next {ready : Bool} {i s : St}
    (hn : nexts ready i = []) (h : Reach ready i s) : s = i := by
  induction h with
  | refl => rfl
  | step hr hm ih => subst ih; rw [hn] at hm; cases hm

/-! ## Trace-shape invariant of `Execute` -/

/-- Events produced inside the event loop without leaving the `Running`
state: Interrogate echoes, the sleep between them, and ignored unknown
commands. -/
def isEchoEv : Ev → Bool
  | .echoed _ => true
  | .paused => true
  | .ignored _ => true
  | _ => false

/-- The `StartPending` report of line 47. -/
def rSP : Ev := .reported ⟨.startPending, 0⟩

/-- The `Running` report of line 48, accepting Stop and Shutdown. -/
def rRun : Ev := .reported ⟨.running, cmdsAccepted⟩

/-- Every trace of `Execute` that got past the startup sends begins with
these two reports, in this order. -/
def startupTrace : List Ev := [rSP, rRun]

/-- The two possible outcomes of `trySendState(svc.StopPending)`. -/
def SpAtt (x : Ev) : Prop :=
  x = .reported ⟨.stopPending, 0⟩ ∨ x = .dropped .stopPending

/-- The two possible outcomes of the deferred `trySendState(svc.Stopped)`. -/
def StAtt (y : Ev) : Prop :=
  y = .reported ⟨.stopped, 0⟩ ∨ y = .dropped .stopped

/-- The trace is the two startup reports, then in-loop echo events,
then `extra`. -/
def MidTrace (tr : List Ev) (extra : List Ev) : Prop :=
  ∃ mid, mid.all isEchoEv = true ∧ tr = startupTrace ++ mid ++ extra

/-- Shape of the trace and of the `(ssec, errno)` result as a function of
`Execute`'s program counter. -/
def GInvCore (epc : ExecPC) (tr : List Ev) (res : Option (Bool × Nat)) : Prop :=
  (match epc with
   | .sendStart => tr = []
   | .sendRun => tr = [rSP]
   | .loop => MidTrace tr []
   | .echoFirst _ => MidTrace tr []
   | .echoPause cur => MidTrace tr [.echoed cur]
   | .echoSecond cur => MidTrace tr [.echoed cur, .paused]
   | .trySP => MidTrace tr []
   | .cb => ∃ x, SpAtt x ∧ MidTrace tr [x]
   | .waitDone => ∃ x, SpAtt x ∧ MidTrace tr [x]
   | .tryStopped => ∃ x, SpAtt x ∧ MidTrace tr [x]
   | .returned => ∃ x y, SpAtt x ∧ StAtt y ∧ MidTrace tr [x, y]) ∧
  res = (if epc = .returned then some (false, 0) else none)

/-- The global trace-shape invariant. -/
def GInv (s : St) : Prop := GInvCore s.epc s.trace s.res

theorem ginv_preserved (ready : Bool) : Preserved ready GInv := by
  rintro ⟨epc, mpc, don, dp, ib, tr, cl, cbr, res⟩ t h hm
  dsimp only [GInv] at h
  simp only [nexts, List.mem_append] at hm
  rcases hm with (hm | hm) | hm
  · -- environment closes `done`: no change to epc/trace/res
    simp only [envSteps] at hm
    split at hm
    · simp only [List.mem_singleton] at hm
      subst hm; exact h
    · cases hm
  · -- multiplexer goroutine steps
    cases mpc with
    | notSpawned => cases hm
    | exited => cases hm
    | selecting =>
      simp only [muxSteps, List.mem_append] at hm
      rcases hm with hm | hm
      · cases ib with
        | nil => cases hm
        | cons c rest =>
          simp only [List.mem_singleton] at hm
          subst hm; exact h
      · split at hm
        · simp only [List.mem_singleton] at hm
          subst hm; exact h
        · cases hm
    | fwd c =>
      simp only [muxSteps] at hm
      split at hm
      · rename_i hepc
        simp only [List.mem_singleton] at hm
        subst hm
        cases epc with
        | loop =>
          obtain ⟨hmid, hres⟩ := h
          cases c with
          | interrogate cur => exact ⟨hmid, hres⟩
          | stop => exact ⟨hmid, hres⟩
          | shutdown => exact ⟨hmid, hres⟩
          | other n =>
            obtain ⟨mid, hall, htr⟩ := hmid
            refine ⟨⟨mid ++ [.ignored n], ?_, ?_⟩, hres⟩
            · simp [List.all_append, hall, isEchoEv]
            · simp [deliverTo, htr, startupTrace, List.append_assoc]
        | sendStart => exact absurd hepc (by simp)
        | sendRun => exact absurd hepc (by simp)
        | echoFirst cur => exact absurd hepc (by simp)
        | echoPause cur => exact absurd hepc (by simp)
        | echoSecond cur => exact absurd hepc (by simp)
        | trySP => exact absurd hepc (by simp)
        | cb => exact absurd hepc (by simp)
        | waitDone => exact absurd hepc (by simp)
        | tryStopped => exact absurd hepc (by simp)
        | returned => exact absurd hepc (by simp)
      · cases hm
    | sendShutdown =>
      simp only [muxSteps] at hm
      split at hm
      · rename_i hepc
        simp only [List.mem_singleton] at hm
        subst hm
        cases epc with
        | loop => exact h
        | sendStart => exact absurd hepc (by simp)
        | sendRun => exact absurd hepc (by simp)
        | echoFirst cur => exact absurd hepc (by simp)
        | echoPause cur => exact absurd hepc (by simp)
        | echoSecond cur => exact absurd hepc (by simp)
        | trySP => exact absurd hepc (by simp)
        | cb => exact absurd hepc (by simp)
        | waitDone => exact absurd hepc (by simp)
        | tryStopped => exact absurd hepc (by simp)
        | returned => exact absurd hepc (by simp)
      · cases hm
  · -- Execute's own steps
    cases epc with
    | sendStart =>
      simp only [execSteps] at hm
      split at hm
      · simp only [List.mem_singleton] at hm
        subst hm
        obtain ⟨htr, hres⟩ := h
        exact ⟨by simp [htr, rSP], hres⟩
      · cases hm
    | sendRun =>
      simp only [execSteps] at hm
      split at hm
      · simp only [List.mem_singleton] at hm
        subst hm
        obtain ⟨htr, hres⟩ := h
        refine ⟨⟨[], rfl, ?_⟩, hres⟩
        simp [htr, startupTrace, rSP, rRun]
      · cases hm
    | loop => cases hm
    | echoFirst cur =>
      simp only [execSteps] at hm
      split at hm
      · simp only [List.mem_singleton] at hm
        subst hm
        obtain ⟨⟨mid, hall, htr⟩, hres⟩ := h
        refine ⟨⟨mid, hall, ?_⟩, hres⟩
        simp [htr, List.append_assoc]
      · cases hm
    | echoPause cur =>
      simp only [execSteps, List.mem_singleton] at hm
      subst hm
      obtain ⟨⟨mid, hall, htr⟩, hres⟩ := h
      refine ⟨⟨mid, hall, ?_⟩, hres⟩
      simp [htr, List.append_assoc]
    | echoSecond cur =>
      simp only [execSteps] at hm
      split at hm
      · simp only [List.mem_singleton] at hm
        subst hm
        obtain ⟨⟨mid, hall, htr⟩, hres⟩ := h
        refine ⟨⟨mid ++ [.echoed cur, .paused, .echoed cur], ?_, ?_⟩, hres⟩
        · simp [List.all_append, hall, isEchoEv]
        · simp [htr, List.append_assoc]
      · cases hm
    | trySP =>
      simp only [execSteps, List.mem_append] at hm
      obtain ⟨⟨mid, hall, htr⟩, hres⟩ := h
      rcases hm with hm | hm
      · split at hm
        · simp only [List.mem_singleton] at hm
          subst hm
          refine ⟨⟨.reported ⟨.stopPending, 0⟩, Or.inl rfl, mid, hall, ?_⟩, hres⟩
          simp [htr, List.append_assoc]
        · cases hm
      · simp only [List.mem_singleton] at hm
        subst hm
        refine ⟨⟨.dropped .stopPending, Or.inr rfl, mid, hall, ?_⟩, hres⟩
        simp [htr, List.append_assoc]
    | cb =>
      simp only [execSteps, List.mem_singleton] at hm
      subst hm; exact h
    | waitDone =>
      simp only [execSteps] at hm
      split at hm
      · simp only [List.mem_singleton] at hm
        subst hm; exact h
      · cases hm
    | tryStopped =>
      simp only [execSteps, List.mem_append] at hm
      obtain ⟨⟨x, hx, mid, hall, htr⟩, hres⟩ := h
      rcases hm with hm | hm
      · split at hm
        · simp only [List.mem_singleton] at hm
          subst hm
          refine ⟨⟨x, .reported ⟨.stopped, 0⟩, hx, Or.inl rfl, mid, hall, ?_⟩, rfl⟩
          simp [htr, List.append_assoc]
        · cases hm
      · simp only [List.mem_singleton] at hm
        subst hm
        refine ⟨⟨x, .dropped .stopped, hx, Or.inr rfl, mid, hall, ?_⟩, rfl⟩
        simp [htr, List.append_assoc]
    | returned => cases hm

theorem ginv_init (inbound : List Cmd) (wrs : Bool) : GInv (init inbound wrs) :=
  ⟨rfl, rfl⟩

theorem reach_ginv {ready : Bool} {inbound : List Cmd} {wrs : Bool} {s : St}
    (h : Reach ready (init inbound wrs) s) : GInv s :=
  reach_pres GInv (ginv_preserved ready) (ginv_init inbound wrs) h

/-! ## Runs whose inbound requests are all stop-class -/

/-- `svc.Stop` or `svc.Shutdown`: the two commands that break the event
loop (lines 74–79). -/
def StopCmd (c : Cmd) : Prop := c = .stop ∨ c = .shutdown

/-- In a run where the service manager only ever delivers stop-class
requests, the event loop never enters the Interrogate handler and the
trace carries no in-loop echo events. -/
def StopOnly (s : St) : Prop :=
  (∀ c ∈ s.inbound, StopCmd c) ∧
  (∀ c, s.mpc = .fwd c → StopCmd c) ∧
  (∀ cur, s.epc ≠ .echoFirst cur ∧ s.epc ≠ .echoPause cur ∧ s.epc ≠ .echoSecond cur) ∧
  s.trace.all (fun e => !isEchoEv e) = true

theorem all_not_echo_append {tr : List Ev} {x : Ev}
    (htr : tr.all (fun e => !isEchoEv e) = true) (hx : isEchoEv x = false) :
    (tr ++ [x]).all (fun e => !isEchoEv e) = true := by
  simp only [List.all_append, Bool.and_eq_true]
  exact ⟨htr, by simp [hx]⟩

theorem stoponly_preserved (ready : Bool) : Preserved ready StopOnly := by
  rintro ⟨epc, mpc, don, dp, ib, tr, cl, cbr, res⟩ t ⟨hib, hfwd, hepc, htr⟩ hm
  dsimp only at hib hfwd hepc htr
  simp only [nexts, List.mem_append] at hm
  rcases hm with (hm | hm) | hm
  · simp only [envSteps] at hm
    split at hm
    · simp only [List.mem_singleton] at hm
      subst hm; exact ⟨hib, hfwd, hepc, htr⟩
    · cases hm
  · cases mpc with
    | notSpawned => cases hm
    | exited => cases hm
    | selecting =>
      simp only [muxSteps, List.mem_append] at hm
      rcases hm with hm | hm
      · cases ib with
        | nil => cases hm
        | cons c rest =>
          simp only [List.mem_singleton] at hm
          subst hm
          refine ⟨?_, ?_, hepc, htr⟩
          · intro d hd
            exact hib d (List.mem_cons_of_mem c hd)
          · intro d hd
            dsimp only at hd
            rw [MuxPC.fwd.injEq] at hd
            subst hd
            exact hib c (List.mem_cons_self c rest)
      · split at hm
        · simp only [List.mem_singleton] at hm
          subst hm
          exact ⟨hib, by simp, hepc, htr⟩
        · cases hm
    | fwd c =>
      simp only [muxSteps] at hm
      split at hm
      · rename_i he
        simp only [List.mem_singleton] at hm
        subst hm
        have hc := hfwd c rfl
        cases c with
        | interrogate cur => rcases hc with hc | hc <;> cases hc
        | other n => rcases hc with hc | hc <;> cases hc
        | stop => exact ⟨hib, by simp [deliverTo], by simp [deliverTo], htr⟩
        | shutdown => exact ⟨hib, by simp [deliverTo], by simp [deliverTo], htr⟩
      · cases hm
    | sendShutdown =>
      simp only [muxSteps] at hm
      split at hm
      · simp only [List.mem_singleton] at hm
        subst hm
        exact ⟨hib, by simp, by simp, htr⟩
      · cases hm
  · cases epc with
    | sendStart =>
      simp only [execSteps] at hm
      split at hm
      · simp only [List.mem_singleton] at hm
        subst hm
        exact ⟨hib, hfwd, by simp, all_not_echo_append htr rfl⟩
      · cases hm
    | sendRun =>
      simp only [execSteps] at hm
      split at hm
      · simp only [List.mem_singleton] at hm
        subst hm
        exact ⟨hib, by simp, by simp, all_not_echo_append htr rfl⟩
      · cases hm
    | loop => cases hm
    | echoFirst cur => exact absurd rfl (hepc cur).1
    | echoPause cur => exact absurd rfl (hepc cur).2.1
    | echoSecond cur => exact absurd rfl (hepc cur).2.2
    | trySP =>
      simp only [execSteps, List.mem_append] at hm
      rcases hm with hm | hm
      · split at hm
        · simp only [List.mem_singleton] at hm
          subst hm
          exact ⟨hib, hfwd, by simp, all_not_echo_append htr rfl⟩
        · cases hm
      · simp only [List.mem_singleton] at hm
        subst hm
        exact ⟨hib, hfwd, by simp, all_not_echo_append htr rfl⟩
    | cb =>
      simp only [execSteps, List.mem_singleton] at hm
      subst hm
      exact ⟨hib, hfwd, by simp, htr⟩
    | waitDone =>
      simp only [execSteps] at hm
      split at hm
      · simp only [List.mem_singleton] at hm
        subst hm
        exact ⟨hib, hfwd, by simp, htr⟩
      · cases hm
    | tryStopped =>
      simp only [execSteps, List.mem_append] at hm
      rcases hm with hm | hm
      · split at hm
        · simp only [List.mem_singleton] at hm
          subst hm
          exact ⟨hib, hfwd, by simp, all_not_echo_append htr rfl⟩
        · cases hm
      · simp only [List.mem_singleton] at hm
        subst hm
        exact ⟨hib, hfwd, by simp, all_not_echo_append htr rfl⟩
    | returned => cases hm

theorem reach_stoponly {ready : Bool} {req : Cmd} {wrs : Bool} {s : St}
    (hreq : StopCmd req) (h : Reach ready (init [req] wrs) s) : StopOnly s := by
  refine reach_pres StopOnly (stoponly_preserved ready) ?_ h
  refine ⟨?_, by simp [init], by simp [init], by simp [init]⟩
  intro c hc
  simp only [init, List.mem_singleton] at hc
  subst hc
  exact hreq

theorem echo_free_mid_nil {mid : List Ev} (h1 : mid.all isEchoEv = true)
    (h2 : mid.all (fun e => !isEchoEv e) = true) : mid = [] := by
  cases mid with
  | nil => rfl
  | cons a l =>
    simp only [List.all_cons, Bool.and_eq_true] at h1 h2
    rw [h1.1] at h2
    simp at h2

/-! ## Claim C1 -/

/-- C1: for every interleaving of the internal stop request (closing
`done`) with a single inbound `Stop` or `Shutdown` request, any run of
`Execute` that returns has attempted `StopPending` exactly once and
`Stopped` exactly once, and its report trace is exactly
`StartPending, Running(Stop|Shutdown), StopPending-attempt,
Stopped-attempt` in this order — no out-of-order or duplicate terminal
report, and only the two best-effort `trySendState` attempts can be
dropped. -/
theorem c1_stop_interleavings_strict_report_order
    (ready : Bool) (req : Cmd) (hreq : StopCmd req) (s : St)
    (h : Reach ready (init [req] true) s) (hret : s.epc = .returned) :
    ∃ x y, SpAtt x ∧ StAtt y ∧ s.trace = [rSP, rRun, x, y] := by
  have hg := reach_ginv h
  have hs := reach_stoponly hreq h
  dsimp only [GInv] at hg
  rw [hret] at hg
  obtain ⟨⟨x, y, hx, hy, mid, hall, htr⟩, -⟩ := hg
  obtain ⟨-, -, -, hne⟩ := hs
  rw [htr] at hne
  simp only [List.all_append, Bool.and_eq_true] at hne
  have hnil := echo_free_mid_nil hall hne.1.2
  subst hnil
  exact ⟨x, y, hx, hy, by simpa [startupTrace] using htr⟩

/-- States of a concrete run used to witness the reachability
hypotheses: the service manager delivers `Stop`, the sink accepts every
report, and the application closes `done` after the callback. -/
def c1s0 : St := init [Cmd.stop] true

def c1s1 : St :=
  ⟨.sendRun, .notSpawned, false, true, [.stop], [rSP], 0, 0, none⟩

def c1s2 : St :=
  ⟨.loop, .selecting, false, true, [.stop], [rSP, rRun], 0, 0, none⟩

def c1s3 : St :=
  ⟨.loop, .fwd .stop, false, true, [], [rSP, rRun], 0, 0, none⟩

def c1s4 : St :=
  ⟨.trySP, .exited, false, true, [], [rSP, rRun], 0, 0, none⟩

def c1s5 : St :=
  ⟨.cb, .exited, false, true, [], [rSP, rRun, .reported ⟨.stopPending, 0⟩], 0, 0, none⟩

def c1s6 : St :=
  ⟨.waitDone, .exited, false, true, [], [rSP, rRun, .reported ⟨.stopPending, 0⟩], 0, 1, none⟩

def c1s7 : St :=
  ⟨.waitDone, .exited, true, false, [], [rSP, rRun, .reported ⟨.stopPending, 0⟩], 1, 1, none⟩

def c1s8 : St :=
  ⟨.tryStopped, .exited, true, false, [], [rSP, rRun, .reported ⟨.stopPending, 0⟩], 1, 1, none⟩

def c1s9 : St :=
  ⟨.returned, .exited, true, false, [],
   [rSP, rRun, .reported ⟨.stopPending, 0⟩, .reported ⟨.stopped, 0⟩], 1, 1,
   some (false, 0)⟩

theorem c1_run : Reach true c1s0 c1s9 := by
  have h1 : Reach true c1s0 c1s1 := Reach.step Reach.refl (by decide)
  have h2 : Reach true c1s0 c1s2 := Reach.step h1 (by decide)
  have h3 : Reach true c1s0 c1s3 := Reach.step h2 (by decide)
  have h4 : Reach true c1s0 c1s4 := Reach.step h3 (by decide)
  have h5 : Reach true c1s0 c1s5 := Reach.step h4 (by decide)
  have h6 : Reach true c1s0 c1s6 := Reach.step h5 (by decide)
  have h7 : Reach true c1s0 c1s7 := Reach.step h6 (by decide)
  have h8 : Reach true c1s0 c1s8 := Reach.step h7 (by decide)
  exact Reach.step h8 (by decide)

/-- Witness for C1 at the concrete run `c1s0 →* c1s9`. -/
theorem c1_stop_interleavings_strict_report_order_witness :
    ∃ x y, SpAtt x ∧ StAtt y ∧ c1s9.trace = [rSP, rRun, x, y] :=
  c1_stop_interleavings_strict_report_order true Cmd.stop (Or.inl rfl) c1s9
    c1_run rfl

/-! ## Claim C10 -/

/-- C10: on every execution path on which `Execute` returns, it returns
`(ssec, errno) = (false, 0)`: the named return values are never assigned
anywhere in the body, so no service-specific error code is ever reported
to the service manager. -/
theorem c10_execute_returns_false_zero
    (ready : Bool) (inb : List Cmd) (wrs : Bool) (s : St)
    (h : Reach ready (init inb wrs) s) (hret : s.epc = .returned) :
    s.res = some (false, 0) := by
  have hg := reach_ginv h
  dsimp only [GInv] at hg
  rw [hg.2, hret]
  simp

/-- Witness for C10 at the concrete run `c1s0 →* c1s9`. -/
theorem c10_execute_returns_false_zero_witness : c1s9.res = some (false, 0) :=
  c10_execute_returns_false_zero true [Cmd.stop] true c1s9 c1_run rfl

/-! ## Claim C2: the multiplexer forwards at most one request -/

/-- `Execute`'s program counters inside the shutdown sequence
(lines 86–97). -/
def NotShutdownPC (epc : ExecPC) : Prop :=
  epc ≠ .trySP ∧ epc ≠ .cb ∧ epc ≠ .waitDone ∧ epc ≠ .tryStopped ∧ epc ≠ .returned

/-- Invariant of the run `inbound = [Interrogate cur0, Stop]`, `done`
never closed: because the goroutine of lines 52–61 performs its `select`
only once, the `Stop` request is never taken from `r` after the
`Interrogate` has been forwarded, and the shutdown sequence is never
entered. -/
def Inv2 (cur0 : SvcStatus) (s : St) : Prop :=
  s.done = false ∧ s.donePending = false ∧ s.cbRuns = 0 ∧ s.res = none ∧
  NotShutdownPC s.epc ∧
  ((s.epc = .sendStart ∨ s.epc = .sendRun) → s.mpc = .notSpawned) ∧
  (match s.mpc with
   | .notSpawned => s.inbound = [.interrogate cur0, .stop]
   | .selecting => s.inbound = [.interrogate cur0, .stop]
   | .fwd c => c = .interrogate cur0 ∧ s.inbound = [.stop]
   | .sendShutdown => False
   | .exited => s.inbound = [.stop])

theorem inv2_preserved (ready : Bool) (cur0 : SvcStatus) :
    Preserved ready (Inv2 cur0) := by
  rintro ⟨epc, mpc, don, dp, ib, tr, cl, cbr, res⟩ t
    ⟨hdon, hdp, hcb, hres, hpc, hstart, hmx⟩ hm
  dsimp only at hdon hdp hcb hres hpc hstart hmx
  subst hdon hdp hcb hres
  simp only [nexts, List.mem_append] at hm
  rcases hm with (hm | hm) | hm
  · simp only [envSteps, Bool.and_false] at hm
    cases hm
  · cases mpc with
    | notSpawned => cases hm
    | exited => cases hm
    | sendShutdown => cases hmx
    | selecting =>
      rw [hmx] at hm
      simp only [muxSteps, Bool.false_eq_true, if_false, List.append_nil,
        List.mem_singleton] at hm
      subst hm
      refine ⟨rfl, rfl, rfl, rfl, hpc, ?_, rfl, rfl⟩
      intro hss
      exact absurd (hstart hss) (by simp)
    | fwd c =>
      obtain ⟨hc, hib⟩ := hmx
      subst hc
      simp only [muxSteps] at hm
      split at hm
      · rename_i he
        simp only [List.mem_singleton] at hm
        subst hm
        exact ⟨rfl, rfl, rfl, rfl, by simp [deliverTo, NotShutdownPC],
          by simp [deliverTo], by simp [deliverTo, hib]⟩
      · cases hm
  · cases epc with
    | sendStart =>
      have hmp := hstart (Or.inl rfl)
      subst hmp
      simp only [execSteps] at hm
      split at hm
      · simp only [List.mem_singleton] at hm
        subst hm
        exact ⟨rfl, rfl, rfl, rfl, by simp [NotShutdownPC], fun _ => rfl, hmx⟩
      · cases hm
    | sendRun =>
      have hmp := hstart (Or.inr rfl)
      subst hmp
      simp only [execSteps] at hm
      split at hm
      · simp only [List.mem_singleton] at hm
        subst hm
        exact ⟨rfl, rfl, rfl, rfl, by simp [NotShutdownPC], by simp, hmx⟩
      · cases hm
    | loop => cases hm
    | echoFirst cur =>
      simp only [execSteps] at hm
      split at hm
      · simp only [List.mem_singleton] at hm
        subst hm
        exact ⟨rfl, rfl, rfl, rfl, by simp [NotShutdownPC], by simp, hmx⟩
      · cases hm
    | echoPause cur =>
      simp only [execSteps, List.mem_singleton] at hm
      subst hm
      exact ⟨rfl, rfl, rfl, rfl, by simp [NotShutdownPC], by simp, hmx⟩
    | echoSecond cur =>
      simp only [execSteps] at hm
      split at hm
      · simp only [List.mem_singleton] at hm
        subst hm
        exact ⟨rfl, rfl, rfl, rfl, by simp [NotShutdownPC], by simp, hmx⟩
      · cases hm
    | trySP => exact absurd rfl hpc.1
    | cb => exact absurd rfl hpc.2.1
    | waitDone => exact absurd rfl hpc.2.2.1
    | tryStopped => exact absurd rfl hpc.2.2.2.1
    | returned => exact absurd rfl hpc.2.2.2.2

theorem reach_inv2 {ready : Bool} {cur0 : SvcStatus} {s : St}
    (h : Reach ready (init [.interrogate cur0, .stop] false) s) : Inv2 cur0 s := by
  refine reach_pres (Inv2 cur0) (inv2_preserved ready cur0) ?_ h
  exact ⟨rfl, rfl, rfl, rfl, by simp [init, NotShutdownPC], fun _ => rfl, rfl⟩

theorem not_sp_report_in_echoes (extra : List Ev) {mid : List Ev}
    (hall : mid.all isEchoEv = true) (hex : extra.all isEchoEv = true) :
    Ev.reported ⟨.stopPending, 0⟩ ∉ startupTrace ++ mid ++ extra := by
  intro hmem
  simp only [List.append_assoc, List.mem_append] at hmem
  rcases hmem with hmem | hmem | hmem
  · simp [startupTrace, rSP, rRun] at hmem
  · have := List.all_eq_true.mp hall _ hmem
    simp [isEchoEv] at this
  · have := List.all_eq_true.mp hex _ hmem
    simp [isEchoEv] at this

/-- The stuck state the Interrogate-then-Stop scenario reaches: both
echoes sent, the multiplexer goroutine gone, `Stop` still undelivered
on `r`, the event loop blocked on `combinedChan` forever. -/
def c2sEnd : St :=
  ⟨.loop, .exited, false, false, [.stop],
   [rSP, rRun, .echoed ⟨.running, cmdsAccepted⟩, .paused,
    .echoed ⟨.running, cmdsAccepted⟩], 0, 0, none⟩

/-- C2 (code bug): if the service manager delivers `Interrogate` and then
`Stop`, the `Stop` is never consumed — the multiplexer goroutine runs its
`select` once, forwards the `Interrogate`, and exits, so in every
reachable state the `Stop` request is still pending on `r`, the
callback has not run, `StopPending` is never reported and `Execute`
never returns; moreover the state after the two echoes has no enabled
transition at all. -/
theorem c2_stop_after_interrogate_lost
    (ready : Bool) (cur0 : SvcStatus) (s : St)
    (h : Reach ready (init [.interrogate cur0, .stop] false) s) :
    (Cmd.stop ∈ s.inbound ∧ s.cbRuns = 0 ∧ s.epc ≠ .trySP ∧ s.epc ≠ .returned ∧
     Ev.reported ⟨.stopPending, 0⟩ ∉ s.trace) ∧
    nexts true c2sEnd = [] := by
  refine ⟨?_, by decide⟩
  obtain ⟨hdon, hdp, hcb, hres, hpc, hstart, hmx⟩ := reach_inv2 h
  have hg := reach_ginv h
  dsimp only [GInv] at hg
  obtain ⟨htr, -⟩ := hg
  have hstop : Cmd.stop ∈ s.inbound := by
    rcases hmp : s.mpc with _ | _ | c | _ | _ <;> rw [hmp] at hmx
    · rw [hmx]; simp
    · rw [hmx]; simp
    · rw [hmx.2]; simp
    · cases hmx
    · rw [hmx]; simp
  refine ⟨hstop, hcb, hpc.1, hpc.2.2.2.2, ?_⟩
  obtain ⟨h1, h2, h3, h4, h5⟩ := hpc
  cases hepc : s.epc <;> rw [hepc] at htr
  case sendStart => rw [htr]; simp
  case sendRun => rw [htr]; simp [rSP]
  case loop =>
    obtain ⟨mid, hall, htr⟩ := htr
    rw [htr, List.append_nil]
    simpa using not_sp_report_in_echoes [] hall rfl
  case echoFirst cur =>
    obtain ⟨mid, hall, htr⟩ := htr
    rw [htr, List.append_nil]
    simpa using not_sp_report_in_echoes [] hall rfl
  case echoPause cur =>
    obtain ⟨mid, hall, htr⟩ := htr
    rw [htr]
    exact not_sp_report_in_echoes _ hall (by simp [isEchoEv])
  case echoSecond cur =>
    obtain ⟨mid, hall, htr⟩ := htr
    rw [htr]
    exact not_sp_report_in_echoes _ hall (by simp [isEchoEv])
  case trySP => exact absurd hepc h1
  case cb => exact absurd hepc h2
  case waitDone => exact absurd hepc h3
  case tryStopped => exact absurd hepc h4
  case returned => exact absurd hepc h5

/-- Witness for C2: the stuck state `c2sEnd` is reached by the concrete
run that delivers `Interrogate` (current status Running) and still holds
the undelivered `Stop`. -/
theorem c2_stop_after_interrogate_lost_witness :
    (Cmd.stop ∈ c2sEnd.inbound ∧ c2sEnd.cbRuns = 0 ∧ c2sEnd.epc ≠ .trySP ∧
     c2sEnd.epc ≠ .returned ∧
     Ev.reported ⟨.stopPending, 0⟩ ∉ c2sEnd.trace) ∧
    nexts true c2sEnd = [] := by
  refine c2_stop_after_interrogate_lost true ⟨.running, cmdsAccepted⟩ c2sEnd ?_
  have h1 : Reach true (init [.interrogate ⟨.running, cmdsAccepted⟩, .stop] false)
      (⟨.sendRun, .notSpawned, false, false, [.interrogate ⟨.running, cmdsAccepted⟩, .stop],
        [rSP], 0, 0, none⟩ : St) :=
    Reach.step Reach.refl (by decide)
  have h2 := Reach.step h1 (t :=
    (⟨.loop, .selecting, false, false, [.interrogate ⟨.running, cmdsAccepted⟩, .stop],
      [rSP, rRun], 0, 0, none⟩ : St)) (by decide)
  have h3 := Reach.step h2 (t :=
    (⟨.loop, .fwd (.interrogate ⟨.running, cmdsAccepted⟩), false, false, [.stop],
      [rSP, rRun], 0, 0, none⟩ : St)) (by decide)
  have h4 := Reach.step h3 (t :=
    (⟨.echoFirst ⟨.running, cmdsAccepted⟩, .exited, false, false, [.stop],
      [rSP, rRun], 0, 0, none⟩ : St)) (by decide)
  have h5 := Reach.step h4 (t :=
    (⟨.echoPause ⟨.running, cmdsAccepted⟩, .exited, false, false, [.stop],
      [rSP, rRun, .echoed ⟨.running, cmdsAccepted⟩], 0, 0, none⟩ : St)) (by decide)
  have h6 := Reach.step h5 (t :=
    (⟨.echoSecond ⟨.running, cmdsAccepted⟩, .exited, false, false, [.stop],
      [rSP, rRun, .echoed ⟨.running, cmdsAccepted⟩, .paused], 0, 0, none⟩ : St)) (by decide)
  exact Reach.step h6 (by decide)

/-! ## Claim C3: `done` is both the stop signal and the completion signal -/

/-- Invariant of any run in which `close(m.done)` is never called:
the shutdown sequence can pass `trySendState(svc.StopPending)` and the
callback but suspends at `<-m.done` (line 95) forever, so the terminal
`Stopped` report is never attempted. -/
def Inv3 (s : St) : Prop :=
  s.done = false ∧ s.donePending = false ∧
  s.epc ≠ .tryStopped ∧ s.epc ≠ .returned ∧
  Ev.reported ⟨.stopped, 0⟩ ∉ s.trace ∧ Ev.dropped .stopped ∉ s.trace

theorem inv3_preserved (ready : Bool) : Preserved ready Inv3 := by
  rintro ⟨epc, mpc, don, dp, ib, tr, cl, cbr, res⟩ t
    ⟨hdon, hdp, hpc1, hpc2, hm1, hm2⟩ hm
  dsimp only at hdon hdp hpc1 hpc2 hm1 hm2
  subst hdon hdp
  simp only [nexts, List.mem_append] at hm
  rcases hm with (hm | hm) | hm
  · simp only [envSteps, Bool.and_false] at hm
    cases hm
  · cases mpc with
    | notSpawned => cases hm
    | exited => cases hm
    | selecting =>
      simp only [muxSteps, Bool.false_eq_true, if_false, List.append_nil] at hm
      cases ib with
      | nil => cases hm
      | cons c rest =>
        simp only [List.mem_singleton] at hm
        subst hm
        exact ⟨rfl, rfl, hpc1, hpc2, hm1, hm2⟩
    | sendShutdown =>
      simp only [muxSteps] at hm
      split at hm
      · simp only [List.mem_singleton] at hm
        subst hm
        exact ⟨rfl, rfl, by simp, by simp, hm1, hm2⟩
      · cases hm
    | fwd c =>
      simp only [muxSteps] at hm
      split at hm
      · simp only [List.mem_singleton] at hm
        subst hm
        cases c with
        | interrogate cur => exact ⟨rfl, rfl, by simp [deliverTo], by simp [deliverTo], hm1, hm2⟩
        | stop => exact ⟨rfl, rfl, by simp [deliverTo], by simp [deliverTo], hm1, hm2⟩
        | shutdown => exact ⟨rfl, rfl, by simp [deliverTo], by simp [deliverTo], hm1, hm2⟩
        | other n =>
          refine ⟨rfl, rfl, by simp [deliverTo], by simp [deliverTo], ?_, ?_⟩
          · simp only [deliverTo, List.mem_append, List.mem_singleton]
            rintro (h | h)
            · exact hm1 h
            · cases h
          · simp only [deliverTo, List.mem_append, List.mem_singleton]
            rintro (h | h)
            · exact hm2 h
            · cases h
      · cases hm
  · cases epc with
    | sendStart =>
      simp only [execSteps] at hm
      split at hm
      · simp only [List.mem_singleton] at hm
        subst hm
        refine ⟨rfl, rfl, by simp, by simp, ?_, ?_⟩ <;>
          · simp only [List.mem_append, List.mem_singleton]
            rintro (h | h)
            · first | exact hm1 h | exact hm2 h
            · cases h
      · cases hm
    | sendRun =>
      simp only [execSteps] at hm
      split at hm
      · simp only [List.mem_singleton] at hm
        subst hm
        refine ⟨rfl, rfl, by simp, by simp, ?_, ?_⟩ <;>
          · simp only [List.mem_append, List.mem_singleton]
            rintro (h | h)
            · first | exact hm1 h | exact hm2 h
            · simp [rRun, cmdsAccepted] at h
      · cases hm
    | loop => cases hm
    | echoFirst cur =>
      simp only [execSteps] at hm
      split at hm
      · simp only [List.mem_singleton] at hm
        subst hm
        refine ⟨rfl, rfl, by simp, by simp, ?_, ?_⟩ <;>
          · simp only [List.mem_append, List.mem_singleton]
            rintro (h | h)
            · first | exact hm1 h | exact hm2 h
            · cases h
      · cases hm
    | echoPause cur =>
      simp only [execSteps, List.mem_singleton] at hm
      subst hm
      refine ⟨rfl, rfl, by simp, by simp, ?_, ?_⟩ <;>
        · simp only [List.mem_append, List.mem_singleton]
          rintro (h | h)
          · first | exact hm1 h | exact hm2 h
          · cases h
    | echoSecond cur =>
      simp only [execSteps] at hm
      split at hm
      · simp only [List.mem_singleton] at hm
        subst hm
        refine ⟨rfl, rfl, by simp, by simp, ?_, ?_⟩ <;>
          · simp only [List.mem_append, List.mem_singleton]
            rintro (h | h)
            · first | exact hm1 h | exact hm2 h
            · cases h
      · cases hm
    | trySP =>
      simp only [execSteps, List.mem_append] at hm
      rcases hm with hm | hm
      · split at hm
        · simp only [List.mem_singleton] at hm
          subst hm
          refine ⟨rfl, rfl, by simp, by simp, ?_, ?_⟩ <;>
            · simp only [List.mem_append, List.mem_singleton]
              rintro (h | h)
              · first | exact hm1 h | exact hm2 h
              · cases h
        · cases hm
      · simp only [List.mem_singleton] at hm
        subst hm
        refine ⟨rfl, rfl, by simp, by simp, ?_, ?_⟩ <;>
          · simp only [List.mem_append, List.mem_singleton]
            rintro (h | h)
            · first | exact hm1 h | exact hm2 h
            · cases h
    | cb =>
      simp only [execSteps, List.mem_singleton] at hm
      subst hm
      exact ⟨rfl, rfl, by simp, by simp, hm1, hm2⟩
    | waitDone =>
      simp only [execSteps, Bool.false_eq_true, if_false] at hm
      cases hm
    | tryStopped => exact absurd rfl hpc1
    | returned => cases hm

/-- C3 (amended): if `close(m.done)` never happens, then — whatever the
service manager delivers — the run never reaches the deferred `Stopped`
report: `done` stays open, the `tryStopped` attempt and `Execute`'s
return are unreachable, and no `Stopped` report or drop ever appears in
the trace (the sequence suspends at line 95 after the callback). -/
theorem c3_no_done_close_suspends_forever
    (ready : Bool) (inb : List Cmd) (s : St)
    (h : Reach ready (init inb false) s) :
    s.done = false ∧ s.epc ≠ .tryStopped ∧ s.epc ≠ .returned ∧
    Ev.reported ⟨.stopped, 0⟩ ∉ s.trace ∧ Ev.dropped .stopped ∉ s.trace := by
  have hi : Inv3 s := by
    refine reach_pres Inv3 (inv3_preserved ready) ?_ h
    exact ⟨rfl, rfl, by simp [init], by simp [init], by simp [init], by simp [init]⟩
  exact ⟨hi.1, hi.2.2.1, hi.2.2.2.1, hi.2.2.2.2.1, hi.2.2.2.2.2⟩

/-- The state suspended at `<-m.done` after the callback returned, in
the run where the service manager delivered `Stop` and `done` was never
closed. -/
def c3sWait : St :=
  ⟨.waitDone, .exited, false, false, [], [rSP, rRun, .reported ⟨.stopPending, 0⟩],
   0, 1, none⟩

theorem c3_wait_run : Reach true (init [Cmd.stop] false) c3sWait := by
  have h1 : Reach true (init [Cmd.stop] false)
      (⟨.sendRun, .notSpawned, false, false, [.stop], [rSP], 0, 0, none⟩ : St) :=
    Reach.step Reach.refl (by decide)
  have h2 := Reach.step h1 (t :=
    (⟨.loop, .selecting, false, false, [.stop], [rSP, rRun], 0, 0, none⟩ : St)) (by decide)
  have h3 := Reach.step h2 (t :=
    (⟨.loop, .fwd .stop, false, false, [], [rSP, rRun], 0, 0, none⟩ : St)) (by decide)
  have h4 := Reach.step h3 (t :=
    (⟨.trySP, .exited, false, false, [], [rSP, rRun], 0, 0, none⟩ : St)) (by decide)
  have h5 := Reach.step h4 (t :=
    (⟨.cb, .exited, false, false, [], [rSP, rRun, .reported ⟨.stopPending, 0⟩],
      0, 0, none⟩ : St)) (by decide)
  exact Reach.step h5 (by decide)

/-- Witness for C3's amended statement at the concrete suspended state
`c3sWait` (callback has returned, `cbRuns = 1`). -/
theorem c3_no_done_close_suspends_forever_witness :
    c3sWait.done = false ∧ c3sWait.epc ≠ .tryStopped ∧ c3sWait.epc ≠ .returned ∧
    Ev.reported ⟨.stopped, 0⟩ ∉ c3sWait.trace ∧
    Ev.dropped .stopped ∉ c3sWait.trace :=
  c3_no_done_close_suspends_forever true [Cmd.stop] c3sWait c3_wait_run

/-- Terminal state of the run triggered solely by the single
`close(m.done)` (the internal stop request). -/
def c3sEnd : St :=
  ⟨.returned, .exited, true, false, [],
   [rSP, rRun, .reported ⟨.stopPending, 0⟩, .reported ⟨.stopped, 0⟩], 1, 1,
   some (false, 0)⟩

/-- Counterexample to C3 as stated: a run with no inbound request in
which exactly one `close(m.done)` ever happens — the internal stop
request itself (`requestStop`); `notifyWindowsServiceStopped` is the
same operation on the same channel, so "notifyShutdownComplete" is never
called separately, yet the wait at line 95 passes immediately and the
terminal `Stopped` report is issued: `CompletionSignal` has no lifetime
independent of `StopSignal` in this code. -/
theorem c3_counterexample_requestStop_reaches_stopped :
    Reach true (init [] true) c3sEnd ∧ c3sEnd.closes = 1 ∧
    c3sEnd.epc = .returned ∧
    c3sEnd.trace = [rSP, rRun, .reported ⟨.stopPending, 0⟩, .reported ⟨.stopped, 0⟩] := by
  refine ⟨?_, rfl, rfl, rfl⟩
  have h1 : Reach true (init [] true)
      (⟨.sendRun, .notSpawned, false, true, [], [rSP], 0, 0, none⟩ : St) :=
    Reach.step Reach.refl (by decide)
  have h2 := Reach.step h1 (t :=
    (⟨.loop, .selecting, false, true, [], [rSP, rRun], 0, 0, none⟩ : St)) (by decide)
  have h3 := Reach.step h2 (t :=
    (⟨.loop, .selecting, true, false, [], [rSP, rRun], 1, 0, none⟩ : St)) (by decide)
  have h4 := Reach.step h3 (t :=
    (⟨.loop, .sendShutdown, true, false, [], [rSP, rRun], 1, 0, none⟩ : St)) (by decide)
  have h5 := Reach.step h4 (t :=
    (⟨.trySP, .exited, true, false, [], [rSP, rRun], 1, 0, none⟩ : St)) (by decide)
  have h6 := Reach.step h5 (t :=
    (⟨.cb, .exited, true, false, [], [rSP, rRun, .reported ⟨.stopPending, 0⟩],
      1, 0, none⟩ : St)) (by decide)
  have h7 := Reach.step h6 (t :=
    (⟨.waitDone, .exited, true, false, [], [rSP, rRun, .reported ⟨.stopPending, 0⟩],
      1, 1, none⟩ : St)) (by decide)
  have h8 := Reach.step h7 (t :=
    (⟨.tryStopped, .exited, true, false, [], [rSP, rRun, .reported ⟨.stopPending, 0⟩],
      1, 1, none⟩ : St)) (by decide)
  exact Reach.step h8 (by decide)

/-! ## Claim C4: `stop()` is `close(m.done)`; a second call panics -/

/-- Go runtime panics relevant to this code. -/
inductive GoPanic
  | closeOfClosedChannel
deriving DecidableEq, Repr

/-- Go's `close` on a channel, as a transition on the channel's
closed-flag: closing an already-closed channel panics
("close of closed channel"). -/
def closeChan (closed : Bool) : Except GoPanic Bool :=
  if closed then .error .closeOfClosedChannel else .ok true

/-- `beatService.stop` (lines 107–109): `close(m.done)`; also the body of
`notifyWindowsServiceStopped` (lines 111–113), which just calls it on the
process-wide instance. -/
def beatServiceStop (done : Bool) : Except GoPanic Bool := closeChan done

/-- Counterexample to C4 as stated: invoking the stop-firing operation
when `done` is already closed is not a no-op — it panics with
"close of closed channel". -/
theorem c4_counterexample_second_stop_panics :
    beatServiceStop true = .error .closeOfClosedChannel := rfl

/-- C4 (amended): firing the stop signal is single-shot, not idempotent:
the first call closes `done`, and any subsequent call panics (close of a
closed channel), so safety rests on a single firer, never on retrying
the fire operation. -/
theorem c4_stop_single_shot :
    beatServiceStop false = .ok true ∧
    beatServiceStop true = .error .closeOfClosedChannel := ⟨rfl, rfl⟩

/-! ## Claim C5: the startup reports are plain blocking sends -/

/-- Counterexample to C5 as stated: with a sink that never accepts, the
initial state — `Execute` at the `changes <- svc.Status{State:
svc.StartPending}` send of line 47 — has no enabled transition at all:
the attempt is never abandoned after 500 ms (there is no timeout on this
send), nothing is logged, and the controller blocks indefinitely before
reporting anything. -/
theorem c5_counterexample_startup_send_blocks :
    nexts false (init [Cmd.stop] false) = [] ∧
    (init [Cmd.stop] false).epc = .sendStart ∧
    (init [Cmd.stop] false).trace = [] := by decide

/-- C5 (amended): on startup the controller reports `StartPending` and
then `Running` with accepted commands Stop|Shutdown, but through plain
blocking channel sends, not the 500 ms bounded reporter: with a sink that
never accepts, every reachable state is the initial one (the send blocks
forever, there is no timeout-bounded abandonment), while any state past
the two sends has a trace beginning exactly
`StartPending, Running(Stop|Shutdown)`. -/
theorem c5_startup_reports_blocking_in_order :
    (∀ s, Reach false (init [Cmd.stop] false) s → s = init [Cmd.stop] false) ∧
    (∀ (ready : Bool) (inb : List Cmd) (wrs : Bool) (s : St),
      Reach ready (init inb wrs) s → s.epc ≠ .sendStart → s.epc ≠ .sendRun →
      s.trace.take 2 = startupTrace) := by
  constructor
  · intro s h
    exact reach_of_no_next (by decide) h
  · intro ready inb wrs s h h1 h2
    have hg := reach_ginv h
    dsimp only [GInv] at hg
    obtain ⟨htr, -⟩ := hg
    cases hepc : s.epc <;> rw [hepc] at htr
    case sendStart => exact absurd hepc h1
    case sendRun => exact absurd hepc h2
    case loop =>
      obtain ⟨mid, -, htr⟩ := htr
      rw [htr]
      simp [startupTrace]
    case echoFirst cur =>
      obtain ⟨mid, -, htr⟩ := htr
      rw [htr]
      simp [startupTrace]
    case echoPause cur =>
      obtain ⟨mid, -, htr⟩ := htr
      rw [htr]
      simp [startupTrace]
    case echoSecond cur =>
      obtain ⟨mid, -, htr⟩ := htr
      rw [htr]
      simp [startupTrace]
    case trySP =>
      obtain ⟨mid, -, htr⟩ := htr
      rw [htr]
      simp [startupTrace]
    case cb =>
      obtain ⟨x, -, mid, -, htr⟩ := htr
      rw [htr]
      simp [startupTrace]
    case waitDone =>
      obtain ⟨x, -, mid, -, htr⟩ := htr
      rw [htr]
      simp [startupTrace]
    case tryStopped =>
      obtain ⟨x, -, mid, -, htr⟩ := htr
      rw [htr]
      simp [startupTrace]
    case returned =>
      obtain ⟨x, y, -, -, mid, -, htr⟩ := htr
      rw [htr]
      simp [startupTrace]

/-- Witness for C5's amended statement: the unready-sink part at the
initial state itself, and the report-order part at the terminal state of
the concrete run `c1s0 →* c1s9`. -/
theorem c5_startup_reports_blocking_in_order_witness :
    init [Cmd.stop] false = init [Cmd.stop] false ∧
    c1s9.trace.take 2 = startupTrace :=
  ⟨c5_startup_reports_blocking_in_order.1 _ Reach.refl,
   c5_startup_reports_blocking_in_order.2 true [Cmd.stop] true c1s9 c1_run
     (by decide) (by decide)⟩

/-! ## Claim C6: `trySendState` timeouts never abort the shutdown -/

/-- A state in which the completion signal has already resolved
(`done` closed once) but the sink never accepts: `Execute` is still stuck
in the startup send with nothing reported, so the sequence cannot reach
`Stopped` — the blocking startup report, not a bounded attempt, is what
prevents it. -/
def c6sStuck : St :=
  ⟨.sendStart, .notSpawned, true, false, [.stop], [], 1, 0, none⟩

/-- Counterexample to C6 as stated: with a sink that never accepts any
write, the run does not "still reach Stopped once the callback and
completion signal resolve" — from `c6sStuck` (done already closed) no
transition is enabled at all, and the pending `StartPending` report call
blocks without any ~500 ms bound. -/
theorem c6_counterexample_unready_sink_never_stopped :
    nexts false c6sStuck = [] ∧ c6sStuck.done = true ∧ c6sStuck.trace = [] := by
  decide

/-- C6 (amended): each `trySendState` report is a single 500 ms-bounded
attempt, never retried, and its timeout never aborts the shutdown
sequence: from the `StopPending` attempt onward, even with a sink that
never accepts, once `done` is closed the run always reaches `Execute`'s
return with both shutdown reports dropped and the callback run — only
the unbounded startup sends (C5) can block the controller forever. -/
theorem c6_bounded_reporter_never_aborts_shutdown
    (s : St) (h1 : s.epc = .trySP) (h2 : s.done = true) :
    ∃ t, Reach false s t ∧ t.epc = .returned ∧
      t.trace = s.trace ++ [.dropped .stopPending, .dropped .stopped] ∧
      t.cbRuns = s.cbRuns + 1 ∧ t.res = some (false, 0) := by
  obtain ⟨epc, mpc, don, dp, ib, tr, cl, cbr, res⟩ := s
  dsimp only at h1 h2 ⊢
  subst h1; subst h2
  refine ⟨⟨.returned, mpc, true, dp, ib,
    tr ++ [.dropped .stopPending] ++ [.dropped .stopped], cl, cbr + 1,
    some (false, 0)⟩, ?_, rfl, by simp, rfl, rfl⟩
  have m1 : (⟨.cb, mpc, true, dp, ib, tr ++ [.dropped .stopPending], cl, cbr, res⟩ : St) ∈
      nexts false ⟨.trySP, mpc, true, dp, ib, tr, cl, cbr, res⟩ := by
    rw [nexts]
    refine List.mem_append.2 (Or.inr ?_)
    simp [execSteps]
  have m2 : (⟨.waitDone, mpc, true, dp, ib, tr ++ [.dropped .stopPending], cl, cbr + 1, res⟩ : St) ∈
      nexts false ⟨.cb, mpc, true, dp, ib, tr ++ [.dropped .stopPending], cl, cbr, res⟩ := by
    rw [nexts]
    refine List.mem_append.2 (Or.inr ?_)
    simp [execSteps]
  have m3 : (⟨.tryStopped, mpc, true, dp, ib, tr ++ [.dropped .stopPending], cl, cbr + 1, res⟩ : St) ∈
      nexts false ⟨.waitDone, mpc, true, dp, ib, tr ++ [.dropped .stopPending], cl, cbr + 1, res⟩ := by
    rw [nexts]
    refine List.mem_append.2 (Or.inr ?_)
    simp [execSteps]
  have m4 : (⟨.returned, mpc, true, dp, ib,
      tr ++ [.dropped .stopPending] ++ [.dropped .stopped], cl, cbr + 1,
      some (false, 0)⟩ : St) ∈
      nexts false ⟨.tryStopped, mpc, true, dp, ib, tr ++ [.dropped .stopPending], cl, cbr + 1, res⟩ := by
    rw [nexts]
    refine List.mem_append.2 (Or.inr ?_)
    simp [execSteps]
  exact Reach.step (Reach.step (Reach.step (Reach.step Reach.refl m1) m2) m3) m4

/-- Witness for C6's amended statement at a concrete state entering the
shutdown sequence with `done` already closed and the sink never ready. -/
theorem c6_bounded_reporter_never_aborts_shutdown_witness :
    ∃ t, Reach false (⟨.trySP, .exited, true, false, [], [rSP, rRun], 1, 0, none⟩ : St) t ∧
      t.epc = .returned ∧
      t.trace = (⟨.trySP, .exited, true, false, [], [rSP, rRun], 1, 0, none⟩ : St).trace ++
        [.dropped .stopPending, .dropped .stopped] ∧
      t.cbRuns = (⟨.trySP, .exited, true, false, [], [rSP, rRun], 1, 0, none⟩ : St).cbRuns + 1 ∧
      t.res = some (false, 0) :=
  c6_bounded_reporter_never_aborts_shutdown
    ⟨.trySP, .exited, true, false, [], [rSP, rRun], 1, 0, none⟩ rfl rfl

/-! ## Claim C7: Interrogate echoes the current status twice -/

/-- C7: delivering an `Interrogate` to the running event loop produces
exactly two echoes of the request's `CurrentStatus` with the 100 ms
pause between them, returns to the loop, and changes nothing else:
every other component of the state — `done`, the pending requests, the
callback count, the result — is unchanged, and the program counter is
back at the loop receive. -/
theorem c7_interrogate_two_echoes_no_state_change
    (s : St) (cur : SvcStatus)
    (hmx : s.mpc = .fwd (.interrogate cur)) (hepc : s.epc = .loop) :
    ∃ t, Reach true s t ∧ t.epc = .loop ∧ t.mpc = .exited ∧
      t.done = s.done ∧ t.donePending = s.donePending ∧
      t.inbound = s.inbound ∧ t.closes = s.closes ∧
      t.cbRuns = s.cbRuns ∧ t.res = s.res ∧
      t.trace = s.trace ++ [.echoed cur, .paused, .echoed cur] := by
  obtain ⟨epc, mpc, don, dp, ib, tr, cl, cbr, res⟩ := s
  dsimp only at hmx hepc ⊢
  subst hmx; subst hepc
  refine ⟨⟨.loop, .exited, don, dp, ib,
    tr ++ [.echoed cur] ++ [.paused] ++ [.echoed cur], cl, cbr, res⟩,
    ?_, rfl, rfl, rfl, rfl, rfl, rfl, rfl, rfl, by simp⟩
  have m1 : (⟨.echoFirst cur, .exited, don, dp, ib, tr, cl, cbr, res⟩ : St) ∈
      nexts true ⟨.loop, .fwd (.interrogate cur), don, dp, ib, tr, cl, cbr, res⟩ := by
    rw [nexts]
    refine List.mem_append.2 (Or.inl (List.mem_append.2 (Or.inr ?_)))
    simp [muxSteps, deliverTo]
  have m2 : (⟨.echoPause cur, .exited, don, dp, ib, tr ++ [.echoed cur], cl, cbr, res⟩ : St) ∈
      nexts true ⟨.echoFirst cur, .exited, don, dp, ib, tr, cl, cbr, res⟩ := by
    rw [nexts]
    refine List.mem_append.2 (Or.inr ?_)
    simp [execSteps]
  have m3 : (⟨.echoSecond cur, .exited, don, dp, ib,
      tr ++ [.echoed cur] ++ [.paused], cl, cbr, res⟩ : St) ∈
      nexts true ⟨.echoPause cur, .exited, don, dp, ib, tr ++ [.echoed cur], cl, cbr, res⟩ := by
    rw [nexts]
    refine List.mem_append.2 (Or.inr ?_)
    simp [execSteps]
  have m4 : (⟨.loop, .exited, don, dp, ib,
      tr ++ [.echoed cur] ++ [.paused] ++ [.echoed cur], cl, cbr, res⟩ : St) ∈
      nexts true ⟨.echoSecond cur, .exited, don, dp, ib,
        tr ++ [.echoed cur] ++ [.paused], cl, cbr, res⟩ := by
    rw [nexts]
    refine List.mem_append.2 (Or.inr ?_)
    simp [execSteps]
  exact Reach.step (Reach.step (Reach.step (Reach.step Reach.refl m1) m2) m3) m4

/-- Witness for C7 at a concrete state where the multiplexer holds an
`Interrogate` whose `CurrentStatus` is Running(Stop|Shutdown). -/
theorem c7_interrogate_two_echoes_no_state_change_witness :
    ∃ t, Reach true (⟨.loop, .fwd (.interrogate ⟨.running, cmdsAccepted⟩), false, false,
        [], [rSP, rRun], 0, 0, none⟩ : St) t ∧
      t.epc = .loop ∧ t.mpc = .exited ∧
      t.done = false ∧ t.donePending = false ∧
      t.inbound = ([] : List Cmd) ∧ t.closes = 0 ∧
      t.cbRuns = 0 ∧ t.res = none ∧
      t.trace = [rSP, rRun] ++ [.echoed ⟨.running, cmdsAccepted⟩, .paused,
        .echoed ⟨.running, cmdsAccepted⟩] :=
  c7_interrogate_two_echoes_no_state_change
    ⟨.loop, .fwd (.interrogate ⟨.running, cmdsAccepted⟩), false, false,
      [], [rSP, rRun], 0, 0, none⟩ ⟨.running, cmdsAccepted⟩ rfl rfl

/-! ## `ProcessWindowsControlEvents` and `WaitExecutionDone` -/

/-- Log levels used by this file (`logp.Err`, `logp.Info`, `logp.Debug`). -/
inductive LogLevel
  | err
  | info
  | debug
deriving DecidableEq, Repr

/-- Result of `run(os.Args[0], serviceInstance)` — `svc.Run` or
`debug.Run`: nil, a `syscall.Errno`, or any other error. -/
inductive RunErr
  | ok
  | errno (n : Nat)
  | other (msg : String)
deriving DecidableEq, Repr

/-- Environment of one call to `ProcessWindowsControlEvents`: what
`svc.IsAnInteractiveSession()` returns, and what the selected `run`
returns. -/
structure PCEEnv where
  isInteractiveSession : Except String Bool
  runErr : RunErr

/-- Observable outcome of one call to `ProcessWindowsControlEvents`:
how many times it closed `executeFinished`, what it logged, whether it
assigned the stop callback and invoked the dispatcher (`run`), and
whether the interactive `debug.Run` variant was selected.  The function
has no return value and no branch raises or returns an error: every
failure is absorbed into `logs`. -/
structure PCEResult where
  executeFinishedCloses : Nat
  logs : List (LogLevel × String)
  callbackRegistered : Bool
  ranDispatcher : Bool
  usedDebugRun : Bool
deriving DecidableEq, Repr

/-- `couldNotConnect`: ERROR_FAILED_SERVICE_CONTROLLER_CONNECT
(line 116). -/
def couldNotConnect : Nat := 1063

/-- `ProcessWindowsControlEvents` (lines 123–166).  The
`defer close(serviceInstance.executeFinished)` of line 124 runs on every
return path, so every branch closes the marker exactly once. -/
def processWindowsControlEvents (env : PCEEnv) : PCEResult :=
  match env.isInteractiveSession with
  | .error e =>
      { executeFinishedCloses := 1,
        logs := [(.err, "IsAnInteractiveSession: " ++ e)],
        callbackRegistered := false, ranDispatcher := false, usedDebugRun := false }
  | .ok isInteractive =>
      let dbg : List (LogLevel × String) := [(.debug, "Windows is interactive")]
      match env.runErr with
      | .ok =>
          { executeFinishedCloses := 1, logs := dbg,
            callbackRegistered := true, ranDispatcher := true,
            usedDebugRun := isInteractive }
      | .errno n =>
          if n = couldNotConnect then
            { executeFinishedCloses := 1,
              logs := dbg ++ [(.info,
                "Attempted to register Windows service handlers, but this is not a service. No action necessary")],
              callbackRegistered := true, ranDispatcher := true,
              usedDebugRun := isInteractive }
          else
            { executeFinishedCloses := 1,
              logs := dbg ++ [(.err, "Windows service setup failed")],
              callbackRegistered := true, ranDispatcher := true,
              usedDebugRun := isInteractive }
      | .other _ =>
          { executeFinishedCloses := 1,
            logs := dbg ++ [(.err, "Windows service setup failed")],
            callbackRegistered := true, ranDispatcher := true,
            usedDebugRun := isInteractive }

/-- Environment of one call to `WaitExecutionDone`: what
`svc.IsWindowsService()` returns and whether `executeFinished` is
closed when (or while) the wait runs. -/
structure WaitEnv where
  isWindowsService : Except String Bool
  executeFinishedClosed : Bool

/-- Upper bound, in milliseconds, on how long the `select` of
lines 176–179 blocks, with `maxWait` the timeout argument of
`time.After`. -/
def waitExecutionDoneBound (maxWait : Nat) (env : WaitEnv) : Nat :=
  match env.isWindowsService with
  | .error _ => 0
  | .ok false => 0
  | .ok true => if env.executeFinishedClosed then 0 else maxWait

/-- `WaitExecutionDone` (lines 170–180): the code instantiates the
timeout at 500 ms (line 178). -/
def waitExecutionDone (env : WaitEnv) : Nat := waitExecutionDoneBound 500 env

/-- "Running under supervision": `svc.IsWindowsService()` returned
`(true, nil)`; any error or `false` takes the early return of
lines 171–174. -/
def underSupervision (env : WaitEnv) : Bool :=
  match env.isWindowsService with
  | .ok true => true
  | _ => false

/-- The log levels of a `ProcessWindowsControlEvents` outcome. -/
def logLevels (r : PCEResult) : List LogLevel := r.logs.map Prod.fst

/-! ## Claim C8 -/

/-- C8: `WaitExecutionDone` returns immediately (zero blocking) whenever
the process is not running under supervision, for any value of the
timeout; when supervised it blocks at most the code's 500 ms on the exit
marker `executeFinished`; and `ProcessWindowsControlEvents` closes that
marker exactly once on every code path — including the failure paths
that never start the event loop. -/
theorem c8_wait_execution_done_bounded
    (mw : Nat) (env : WaitEnv) (penv : PCEEnv) :
    (underSupervision env = false → waitExecutionDoneBound mw env = 0) ∧
    waitExecutionDone env ≤ 500 ∧
    (processWindowsControlEvents penv).executeFinishedCloses = 1 := by
  refine ⟨?_, ?_, ?_⟩
  · intro h
    obtain ⟨isw, efc⟩ := env
    cases isw with
    | error e => rfl
    | ok b =>
      cases b with
      | false => rfl
      | true => simp [underSupervision] at h
  · obtain ⟨isw, efc⟩ := env
    cases isw with
    | error e => exact Nat.zero_le _
    | ok b =>
      cases b with
      | false => exact Nat.zero_le _
      | true =>
        cases efc with
        | false => exact Nat.le_refl _
        | true => exact Nat.zero_le _
  · obtain ⟨ii, re⟩ := penv
    cases ii with
    | error e => rfl
    | ok b =>
      cases re with
      | ok => rfl
      | errno n =>
        by_cases hn : n = couldNotConnect <;>
          simp [processWindowsControlEvents, hn]
      | other m => rfl

/-- Witness for C8: a non-service environment with an absurdly large
timeout still waits zero; a supervised environment whose exit marker is
never closed is nevertheless bounded by 500 ms; the
interactive-query-failure path still closes the marker once. -/
theorem c8_wait_execution_done_bounded_witness :
    waitExecutionDoneBound 1000000 ⟨.ok false, false⟩ = 0 ∧
    waitExecutionDone ⟨.ok true, false⟩ ≤ 500 ∧
    (processWindowsControlEvents ⟨.error "query failed", .ok⟩).executeFinishedCloses = 1 :=
  ⟨(c8_wait_execution_done_bounded 1000000 ⟨.ok false, false⟩
      ⟨.error "query failed", .ok⟩).1 rfl,
   (c8_wait_execution_done_bounded 1000000 ⟨.ok true, false⟩
      ⟨.error "query failed", .ok⟩).2.1,
   (c8_wait_execution_done_bounded 1000000 ⟨.ok false, false⟩
      ⟨.error "query failed", .ok⟩).2.2⟩

/-! ## Claim C9 -/

/-- C9: no failure inside `ProcessWindowsControlEvents` propagates
outward — the embedding is a total function into a result with no error
component, mirroring the Go function, which returns normally on every
path.  On the interactive-session query failure the error is only
logged (at error level) and the dispatcher is never started; the benign
errno 1063 ("not actually a service") is logged at info level with no
error-level entry; any other registration failure is logged at error
level; and every path closes `executeFinished` and keeps running
unsupervised rather than failing. -/
theorem c9_all_failures_absorbed (env : PCEEnv) :
    (processWindowsControlEvents env).executeFinishedCloses = 1 ∧
    (∀ e, env.isInteractiveSession = .error e →
      (processWindowsControlEvents env).ranDispatcher = false ∧
      logLevels (processWindowsControlEvents env) = [.err]) ∧
    (∀ b, env.isInteractiveSession = .ok b → env.runErr = .errno couldNotConnect →
      logLevels (processWindowsControlEvents env) = [.debug, .info]) ∧
    (∀ b m, env.isInteractiveSession = .ok b → env.runErr = .other m →
      logLevels (processWindowsControlEvents env) = [.debug, .err]) := by
  obtain ⟨ii, re⟩ := env
  refine ⟨?_, ?_, ?_, ?_⟩
  · cases ii with
    | error e => rfl
    | ok b =>
      cases re with
      | ok => rfl
      | errno n =>
        by_cases hn : n = couldNotConnect <;>
          simp [processWindowsControlEvents, hn]
      | other m => rfl
  · rintro e rfl
    exact ⟨rfl, rfl⟩
  · rintro b rfl rfl
    simp [processWindowsControlEvents, logLevels, couldNotConnect]
  · rintro b m rfl rfl
    rfl

/-- Witness for C9 on the three failure environments: query failure,
the benign errno 1063, and a generic registration failure. -/
theorem c9_all_failures_absorbed_witness :
    logLevels (processWindowsControlEvents ⟨.error "boom", .ok⟩) = [.err] ∧
    logLevels (processWindowsControlEvents ⟨.ok false, .errno 1063⟩) = [.debug, .info] ∧
    logLevels (processWindowsControlEvents ⟨.ok true, .other "dispatcher exploded"⟩) =
      [.debug, .err] :=
  ⟨((c9_all_failures_absorbed ⟨.error "boom", .ok⟩).2.1 "boom" rfl).2,
   (c9_all_failures_absorbed ⟨.ok false, .errno 1063⟩).2.2.1 false rfl rfl,
   (c9_all_failures_absorbed ⟨.ok true, .other "dispatcher exploded"⟩).2.2.2
     true "dispatcher exploded" rfl rfl⟩

end ServiceWindows
